import Mathlib

/-!
# Verification of the "Discover Portugal" event-discovery backend

Shallow embedding of `src/main.py` (request handlers, filter construction,
document serialization, RSVP hydration) and `src/schemas.py` (data shapes),
with theorems settling the specification claims.

Documents of the Mongo-like store are modelled as association lists of
field name / value pairs (Python dicts preserve insertion order and have
unique keys).  BSON ObjectIds are modelled as natural numbers rendered as
24 lowercase hexadecimal digits, matching `str(ObjectId)`; a string is a
well-formed ObjectId exactly when it is 24 hex digits (`ObjectId.is_valid`
for `str` inputs).  Datetimes are modelled as calendar tuples with an
ISO-8601 rendering for `datetime.isoformat()`.
-/

set_option autoImplicit false

namespace DiscoverPortugal

/-- Calendar datetime, standing in for Python `datetime.datetime`. -/
structure Dt where
  year : Nat
  month : Nat
  day : Nat
  hour : Nat
  minute : Nat
  second : Nat
deriving DecidableEq, Repr

/-- Left-pad the decimal rendering of `n` with zeros to width `w`. -/
def padNat (w n : Nat) : String :=
  let s := toString n
  String.mk (List.replicate (w - s.length) '0') ++ s

/-- Python `datetime.isoformat()`: `YYYY-MM-DDTHH:MM:SS`. -/
def Dt.isoformat (t : Dt) : String :=
  padNat 4 t.year ++ "-" ++ padNat 2 t.month ++ "-" ++ padNat 2 t.day ++ "T" ++
    padNat 2 t.hour ++ ":" ++ padNat 2 t.minute ++ ":" ++ padNat 2 t.second

/-- BSON-like values stored in documents.  `vOid` is a store-native
ObjectId (a 12-byte value, modelled as a natural number); `vDoc` is an
embedded document (e.g. the `location` of an Event); `vList` an array. -/
inductive Value where
  | vNull
  | vBool (b : Bool)
  | vInt (n : Int)
  | vStr (s : String)
  | vOid (o : Nat)
  | vDt (t : Dt)
  | vDoc (fields : List (String × Value))
  | vList (items : List Value)

/-- A stored document: field names to values, in insertion order. -/
abbrev Doc := List (String × Value)

/-- Python truthiness (`if v:`) for the modelled values.  `None`, `False`,
`0`, `""`, `{}` and `[]` are falsy; ObjectIds and datetimes are truthy. -/
def pyTruthy : Value → Bool
  | .vNull => false
  | .vBool b => b
  | .vInt n => n ≠ 0
  | .vStr s => s ≠ ""
  | .vOid _ => true
  | .vDt _ => true
  | .vDoc d => !d.isEmpty
  | .vList l => !l.isEmpty

/-- Hex digit character for `n < 16`, lowercase (as `ObjectId.__str__`). -/
def hexDigit (n : Nat) : Char :=
  if n < 10 then Char.ofNat (48 + n) else Char.ofNat (87 + n)

/-- MSB-first fixed-width hexadecimal digit list of `o` (width `len`). -/
def toHexAux : Nat → Nat → List Char
  | 0, _ => []
  | len + 1, o => toHexAux len (o / 16) ++ [hexDigit (o % 16)]

/-- Format `str(ObjectId)`: 24 lowercase hexadecimal digits. -/
def oidToString (o : Nat) : String :=
  String.mk (toHexAux 24 o)

/-- Is `c` a hexadecimal digit (either case)? -/
def isHexChar (c : Char) : Bool :=
  ('0' ≤ c && c ≤ '9') || ('a' ≤ c && c ≤ 'f') || ('A' ≤ c && c ≤ 'F')

/-- Numeric value of a hex digit character (junk on other characters). -/
def hexVal (c : Char) : Nat :=
  if '0' ≤ c && c ≤ '9' then c.toNat - 48
  else if 'a' ≤ c && c ≤ 'f' then c.toNat - 87
  else if 'A' ≤ c && c ≤ 'F' then c.toNat - 55
  else 0

/-- Check `ObjectId.is_valid` on a `str` argument: exactly 24 hex characters. -/
def isValidOidStr (s : String) : Bool :=
  s.length = 24 && s.toList.all isHexChar

/-- Parse a hex digit list, MSB first. -/
def parseHex (l : List Char) : Nat :=
  l.foldl (fun acc c => acc * 16 + hexVal c) 0

/-- Parse `ObjectId(s)` on a string: succeeds exactly on well-formed id strings
(case-insensitive hex), returning the 12-byte value. -/
def parseOid (s : String) : Option Nat :=
  if isValidOidStr s then some (parseHex s.toList) else none

/-- Python `str()` on a stored value.  The handlers only ever take `str`
of an ObjectId (`str(d["_id"])`, `str(ev["_id"])`) or of an
already-stringified id, so those two cases carry the weight; the remaining
scalar renderings follow Python, and container renderings are not walked
(no handler stringifies a container). -/
def pyStr : Value → String
  | .vNull => "None"
  | .vBool b => if b then "True" else "False"
  | .vInt n => toString n
  | .vStr s => s
  | .vOid o => oidToString o
  | .vDt t => t.isoformat
  | .vDoc _ => "<dict>"
  | .vList _ => "<list>"

/-- First value bound to key `k` in document `d` (Python `d.get(k)`;
dict keys are unique, so the first binding is the binding). -/
def getVal : Doc → String → Option Value
  | [], _ => none
  | p :: t, k => if p.1 = k then some p.2 else getVal t k

/-- Python `d[k] = v` on a dict: overwrite the binding in place if the key
exists, else append a new binding at the end. -/
def setItem (d : Doc) (k : String) (v : Value) : Doc :=
  if d.any (fun p => p.1 = k) then
    d.map (fun p => if p.1 = k then (k, v) else p)
  else
    d ++ [(k, v)]

/-- The datetime-conversion pass of `serialize_doc`: rewrite every
top-level datetime value to its `isoformat()` string, leave everything
else (embedded documents included) alone. -/
def dtRewrite : Value → Value
  | .vDt t => .vStr t.isoformat
  | v => v

/-- The `_id`-stringification step of `serialize_doc`:
`if d.get("_id"): d["_id"] = str(d["_id"])`. -/
def idStep (d : Doc) : Doc :=
  match getVal d "_id" with
  | some v => if pyTruthy v then setItem d "_id" (.vStr (pyStr v)) else d
  | none => d

/-- The datetime loop of `serialize_doc`:
`for k, v in list(d.items()): if isinstance(v, datetime): d[k] = v.isoformat()`. -/
def dtMap (d : Doc) : Doc :=
  d.map (fun p => (p.1, dtRewrite p.2))

/-- Body of `serialize_doc` on a non-empty document: stringify a truthy `_id`,
then convert top-level datetimes to ISO strings. -/
def serializeNonEmpty (d : Doc) : Doc :=
  dtMap (idStep d)

/-- Function `serialize_doc(doc)` from `src/main.py`.  The input is a document or
an absent (`None`) value; `if not doc: return doc` returns an absent or
empty input unchanged. -/
def serialize_doc : Option Doc → Option Doc
  | none => none
  | some d => if d.isEmpty then some [] else some (serializeNonEmpty d)

/-! ## The document store and the handlers of `src/main.py` -/

/-- The connected Mongo database handle: the `event` and `rsvp`
collections in natural (insertion) order, plus the information the
health-check endpoint probes — the database name (absent when the handle
has no `name` attribute) and the outcome of `list_collection_names()`
(either the names, or the message of the exception it raised). -/
structure DB where
  event : List Doc
  rsvp : List Doc
  name? : Option String
  collectionNames : Except String (List String)

/-- Mongo exact-match `find` on one string-valued field, with `.limit`.
A document matches `{field: value}` when its `field` holds that exact
string. -/
def findByStrField (coll : List Doc) (field value : String) (lim : Nat) :
    List Doc :=
  (coll.filter (fun d =>
    match getVal d field with
    | some (.vStr s) => s = value
    | _ => false)).take lim

/-- Mongo `find({"_id": ObjectId(..)})`-style match of one document. -/
def idMatches (d : Doc) (o : Nat) : Bool :=
  match getVal d "_id" with
  | some (.vOid o') => o' = o
  | _ => false

/-- Mongo `find_one({"_id": oid})`: first document with that ObjectId. -/
def find_one_by_id (coll : List Doc) (o : Nat) : Option Doc :=
  coll.find? (fun d => idMatches d o)

/-- Mongo `find({"_id": {"$in": ids}})`: all documents whose ObjectId occurs in
`ids`, in collection order (no limit in the source). -/
def findIdIn (coll : List Doc) (ids : List Nat) : List Doc :=
  coll.filter (fun d =>
    match getVal d "_id" with
    | some (.vOid o) => ids.contains o
    | _ => false)

/-- Outcome of a handler: a JSON-like body with HTTP status 200, or an
`HTTPException` with a status code and a `detail` message. -/
inductive HResult (α : Type) where
  | ok (body : α)
  | err (status : Nat) (detail : String)
deriving DecidableEq, Repr

/-- HTTP status of a handler outcome (a plain return is a 200). -/
def HResult.statusCode {α : Type} : HResult α → Nat
  | .ok _ => 200
  | .err s _ => s

/-- Message `str(e)` for the exceptions `get_event` can catch: a
`bson.errors.InvalidId` from `ObjectId(event_id)`, or the
`fastapi.HTTPException` raised for a missing document (whose `str` is
`"{status}: {detail}"`). -/
def invalidIdMsg (s : String) : String :=
  s ++ " is not a valid ObjectId, it must be a 12-byte input" ++
    " or a 24-character hex string"

def httpExcStr (status : Nat) (detail : String) : String :=
  toString status ++ ": " ++ detail

/-- Handler of `GET /` — `read_root`: static liveness message, no store access. -/
def read_root (_db : Option DB) : HResult Doc :=
  .ok [("message", .vStr "Discover Portugal API is running")]

/-- Handler of `GET /api/hello` — `hello`: static greeting, no store access. -/
def hello (_db : Option DB) : HResult Doc :=
  .ok [("message", .vStr "Olá from Discover Portugal backend!")]

/-- Handler of `GET /api/events/{event_id}` — `get_event`.  Mirrors the source: a
`None` handle raises a 500 outside the `try`; inside the `try`, a
malformed id makes `ObjectId(event_id)` raise, a missing document raises
`HTTPException(404, "Event not found")`, and the blanket
`except Exception` turns **any** exception raised in the `try` — the 404
included — into a 400 whose detail is `str(e)`. -/
def get_event (db : Option DB) (event_id : String) : HResult Doc :=
  match db with
  | none => .err 500 "Database not configured"
  | some dbv =>
    match parseOid event_id with
    | none => .err 400 (invalidIdMsg event_id)
    | some o =>
      match find_one_by_id dbv.event o with
      | none => .err 400 (httpExcStr 404 "Event not found")
      | some doc =>
        match serialize_doc (some doc) with
        | some sd => .ok sd
        | none => .ok []

/-! ### Filter construction for the list endpoints -/

/-- One condition of a Mongo filter document, as the handlers build them:
an exact match on a (possibly nested, dotted) field path, or an `$or` of
two `$regex`/`$options: "i"` pattern conditions. -/
inductive Cond where
  | eqc (field : String) (value : String)
  | regexI (field : String) (pattern : String)
  | orc (left : Cond) (right : Cond)
deriving DecidableEq, Repr

/-- The filter dict built by `list_events`: start empty, add
`{"category": category}` when `category` is truthy, `{"location.city":
city}` when `city` is truthy, and an `$or` of two case-insensitive regex
conditions on `title` and `description` when `q` is truthy.  An absent
parameter is `None`; both `None` and `""` are falsy. -/
def list_events_filter (category city q : Option String) : List Cond :=
  (match category with
   | some c => if c ≠ "" then [Cond.eqc "category" c] else []
   | none => []) ++
  (match city with
   | some c => if c ≠ "" then [Cond.eqc "location.city" c] else []
   | none => []) ++
  (match q with
   | some qs => if qs ≠ "" then
       [Cond.orc (Cond.regexI "title" qs) (Cond.regexI "description" qs)]
     else []
   | none => [])

/-- The filter dict built by `list_rsvps`: exact matches on `user_email`
and `event_id` when those parameters are truthy. -/
def list_rsvps_filter (user_email event_id : Option String) : List Cond :=
  (match user_email with
   | some u => if u ≠ "" then [Cond.eqc "user_email" u] else []
   | none => []) ++
  (match event_id with
   | some e => if e ≠ "" then [Cond.eqc "event_id" e] else []
   | none => [])

/-- FastAPI validation of `limit: int = Query(default, ge=1, le=hi)`:
an absent parameter takes the default, a supplied value outside
`[ge, le]` is rejected with a 422 validation error. -/
def queryIntParam (default ge le : Int) : Option Int → Except String Int
  | none => .ok default
  | some v =>
    if v < ge then .error "Input should be greater than or equal to ge"
    else if le < v then .error "Input should be less than or equal to le"
    else .ok v

/-- The `limit` parameter of `GET /api/events`: `Query(50, ge=1, le=200)`. -/
def eventsLimitParam : Option Int → Except String Int :=
  queryIntParam 50 1 200

/-- The `limit` parameter of `GET /api/rsvps`: `Query(100, ge=1, le=300)`. -/
def rsvpsLimitParam : Option Int → Except String Int :=
  queryIntParam 100 1 300

/-- First value bound to key `k` in a string-keyed Python dict of
serialized documents (`events_by_id.get(k)`); keys are unique by dict
construction, so first match is the binding. -/
def dictGet : List (String × Doc) → String → Option Doc
  | [], _ => none
  | p :: t, k => if p.1 = k then some p.2 else dictGet t k

/-- Python `m[k] = v` on a string-keyed dict: overwrite in place when the
key exists, else append. -/
def dictInsert (m : List (String × Doc)) (k : String) (v : Doc) :
    List (String × Doc) :=
  if m.any (fun p => p.1 = k) then
    m.map (fun p => if p.1 = k then (k, v) else p)
  else
    m ++ [(k, v)]

/-- The `event_id` values of the fetched RSVPs that are well-formed
ObjectIds, parsed — `[ObjectId(r["event_id"]) for r in rsvps if
ObjectId.is_valid(r.get("event_id", ""))]`.  `is_valid` accepts a
well-formed 24-hex string or an actual ObjectId value and rejects
everything else (a missing field defaults to the invalid `""`). -/
def rsvpEventIds (rsvps : List Doc) : List Nat :=
  rsvps.filterMap (fun r =>
    match getVal r "event_id" with
    | some (.vStr s) => parseOid s
    | some (.vOid o) => some o
    | _ => none)

/-- One iteration of the `events_by_id` loop body:
`events_by_id[str(ev["_id"])] = serialize_doc(ev)`.  Every fetched
document has an ObjectId `_id` (the `$in` filter matched on it), so the
`none` arm is unreachable. -/
def eventsByIdStep (m : List (String × Doc)) (ev : Doc) : List (String × Doc) :=
  match getVal ev "_id" with
  | some v => dictInsert m (pyStr v) (serializeNonEmpty ev)
  | none => m

/-- Dict `events_by_id`: for each event fetched by the `$in` query, bind
`str(ev["_id"])` to `serialize_doc(ev)`, in fetch order. -/
def eventsById (fetched : List Doc) : List (String × Doc) :=
  fetched.foldl eventsByIdStep []

/-- The referenced-events batch fetch, guarded by `if event_ids:` (the
query is only issued when some id parsed; an empty `$in` would match
nothing anyway). -/
def fetchReferenced (events : List Doc) (eventIds : List Nat) : List Doc :=
  if eventIds.isEmpty then [] else findIdIn events eventIds

/-- Hydration of one RSVP:
`rd = serialize_doc(r); rd["event"] = events_by_id.get(r.get("event_id"))`.
The dict holds string keys, so a lookup with a non-string `event_id`
(`None` included) misses and attaches `None`. -/
def hydrateRsvp (byId : List (String × Doc)) (r : Doc) : Doc :=
  setItem (serializeNonEmpty r) "event"
    (match getVal r "event_id" with
     | some (.vStr s) =>
       match dictGet byId s with
       | some e => .vDoc e
       | none => .vNull
     | _ => .vNull)

/-- The response body of `GET /api/my`. -/
structure MyBody where
  created_events : List Doc
  rsvps : List Doc

/-- Handler of `GET /api/my?email=..` — `my_overview`.  A `None` handle raises a 500
outside the `try`.  Otherwise: fetch up to 100 events by
`organizer_email` and up to 200 RSVPs by `user_email`; parse the
well-formed `event_id`s and batch-fetch the referenced events; key the
serialized events by their canonical id string; and attach to each
serialized RSVP an `event` field via `hydrateRsvp`. -/
def my_overview (db : Option DB) (email : String) : HResult MyBody :=
  match db with
  | none => .err 500 "Database not configured"
  | some dbv =>
    let created := findByStrField dbv.event "organizer_email" email 100
    let rsvps := findByStrField dbv.rsvp "user_email" email 200
    let byId := eventsById (fetchReferenced dbv.event (rsvpEventIds rsvps))
    .ok { created_events := created.map serializeNonEmpty,
          rsvps := rsvps.map (hydrateRsvp byId) }

/-- Handler of `GET /test` — `test_database`.  Starts from a fixed degraded-state
response dict and upgrades it by probing the handle; the inner
`try`/`except` turns a `list_collection_names()` failure into a degraded
status string with the exception message truncated to 50 characters;
`collections[:10]` keeps at most ten names.  Every arm returns the dict,
a 200. -/
def test_database (envSet : Bool) (db : Option DB) : HResult Doc :=
  let response : Doc :=
    [("backend", .vStr "✅ Running"),
     ("database", .vStr "❌ Not Available"),
     ("database_url", .vNull),
     ("database_name", .vNull),
     ("connection_status", .vStr "Not Connected"),
     ("collections", .vList [])]
  match db with
  | none =>
    .ok (setItem response "database" (.vStr "⚠️ Available but not initialized"))
  | some dbv =>
    let r1 := setItem response "database" (.vStr "✅ Available")
    let r2 := setItem r1 "database_url"
      (.vStr (if envSet then "✅ Set" else "❌ Not Set"))
    let r3 := setItem r2 "database_name"
      (.vStr (match dbv.name? with
              | some n => n
              | none => "✅ Configured"))
    let r4 := setItem r3 "connection_status" (.vStr "Connected")
    match dbv.collectionNames with
    | .ok cols =>
      let r5 := setItem r4 "collections" (.vList ((cols.take 10).map .vStr))
      .ok (setItem r5 "database" (.vStr "✅ Connected & Working"))
    | .error e =>
      .ok (setItem r4 "database" (.vStr ("⚠️ Connected but Error: " ++ e.take 50)))

/-! ## Spec-side definitions and concrete sample data -/

/-- ObjectId stored under `_id`, when the document has a store-native
identifier. -/
def oidOf (e : Doc) : Option Nat :=
  match getVal e "_id" with
  | some (.vOid o) => some o
  | _ => none

/-- Canonical serialized identifier string of a stored document — the
24-lowercase-hex rendering of its ObjectId — defined exactly when `_id`
holds an ObjectId. -/
def idStringOf (e : Doc) : Option String :=
  match getVal e "_id" with
  | some (.vOid o) => some (oidToString o)
  | _ => none

/-- Key under which the `events_by_id` loop would file a document:
`str` of its `_id` value. -/
def oidKey (ev : Doc) : Option String :=
  match getVal ev "_id" with
  | some v => some (pyStr v)
  | none => none

/-- Entry the `events_by_id` loop files for a document. -/
def oidEntry (ev : Doc) : Option (String × Doc) :=
  match getVal ev "_id" with
  | some v => some (pyStr v, serializeNonEmpty ev)
  | none => none

/-- Hydration value as the amended claim C2 describes it: the serialized
stored event whose canonical identifier string equals the `event_id` of
the RSVP, and null when there is none — in particular when `event_id` is
malformed, references no stored event, or is a non-canonical (e.g.
uppercase-hex) spelling of a stored identifier. -/
def specEventFor (events : List Doc) (r : Doc) : Value :=
  match getVal r "event_id" with
  | some (.vStr s) =>
    match events.find? (fun e => idStringOf e = some s) with
    | some e => .vDoc (serializeNonEmpty e)
    | none => .vNull
  | _ => .vNull

/-- A store handle with empty collections, for concrete evaluations. -/
def sampleDB : DB :=
  { event := [], rsvp := [], name? := none, collectionNames := .ok [] }

/-- Sample stored Event document: ObjectId `_id`, a top-level datetime, a
string, and an embedded location that itself contains a datetime. -/
def c7SampleDoc : Doc :=
  [("_id", .vOid 5), ("title", .vStr "Fado night"),
   ("start_time", .vDt ⟨2024, 6, 10, 21, 0, 0⟩),
   ("location", .vDoc [("city", .vStr "Lisboa"),
                       ("opens", .vDt ⟨2024, 6, 10, 20, 0, 0⟩)])]

/-- Stored event with ObjectId 10 (canonical string
`00000000000000000000000a`). -/
def c2Event : Doc := [("_id", .vOid 10), ("title", .vStr "Surf")]

/-- RSVP referencing the event above through the well-formed but
uppercase-hex spelling of its identifier. -/
def c2CexRsvp : Doc :=
  [("_id", .vOid 1), ("event_id", .vStr "00000000000000000000000A"),
   ("user_email", .vStr "ana@mail.pt")]

/-- Counterexample store for C2. -/
def c2CexDB : DB :=
  { event := [c2Event], rsvp := [c2CexRsvp], name? := none,
    collectionNames := .ok [] }

/-- RSVP referencing the event through the canonical lowercase spelling. -/
def c2WitnessRsvp : Doc :=
  [("_id", .vOid 1), ("event_id", .vStr "00000000000000000000000a"),
   ("user_email", .vStr "ana@mail.pt")]

/-- Witness store for the amended C2. -/
def c2WitnessDB : DB :=
  { event := [c2Event], rsvp := [c2WitnessRsvp], name? := none,
    collectionNames := .ok [] }

/-! ## Lemmas about the serializer -/

/-- On a present document both source branches reduce to
`serializeNonEmpty` (on `[]` they agree), so `serialize_doc` never
returns an absent value there. -/
theorem serialize_doc_some (d : Doc) :
    serialize_doc (some d) = some (serializeNonEmpty d) := by
  by_cases h : d = []
  · subst h; rfl
  · simp [serialize_doc, List.isEmpty_iff, h]

theorem dtRewrite_idem (v : Value) : dtRewrite (dtRewrite v) = dtRewrite v := by
  cases v <;> rfl

/-- A falsy value is never a datetime, so the datetime pass keeps it. -/
theorem dtRewrite_of_falsy {v : Value} (h : pyTruthy v = false) :
    dtRewrite v = v := by
  cases v <;> first | rfl | simp [pyTruthy] at h

theorem dtMap_idem (d : Doc) : dtMap (dtMap d) = dtMap d := by
  simp [dtMap, List.map_map, Function.comp_def, dtRewrite_idem]

theorem getVal_dtMap (d : Doc) (k : String) :
    getVal (dtMap d) k = (getVal d k).map dtRewrite := by
  induction d with
  | nil => rfl
  | cons p t ih =>
    by_cases h : p.1 = k
    · simp [dtMap, getVal, h]
    · simpa [dtMap, getVal, h] using ih

theorem any_key_of_getVal {d : Doc} {k : String} {v : Value}
    (h : getVal d k = some v) : d.any (fun p => p.1 = k) = true := by
  induction d with
  | nil => simp [getVal] at h
  | cons p t ih =>
    by_cases hp : p.1 = k
    · simp [hp]
    · simp only [getVal, if_neg hp] at h
      simp [hp, ih h]

theorem getVal_replaceAll {d : Doc} {k : String} {v : Value} (w : Value)
    (h : getVal d k = some v) :
    getVal (d.map (fun p => if p.1 = k then (k, w) else p)) k = some w := by
  induction d with
  | nil => simp [getVal] at h
  | cons p t ih =>
    by_cases hp : p.1 = k
    · simp [getVal, hp]
    · simp only [getVal, if_neg hp] at h
      simp [getVal, hp, ih h]

/-- Overwriting key `k` makes `k` read back the new value. -/
theorem getVal_setItem_self {d : Doc} {k : String} {v : Value} (w : Value)
    (h : getVal d k = some v) : getVal (setItem d k w) k = some w := by
  rw [setItem, if_pos (any_key_of_getVal h)]
  exact getVal_replaceAll w h

/-- After `setItem d k w`, every binding of `k` holds `w`. -/
theorem setItem_entry_eq {d : Doc} {k : String} {w : Value} :
    ∀ p ∈ setItem d k w, p.1 = k → p.2 = w := by
  intro p hp hk
  cases hany : d.any (fun p => p.1 = k) with
  | true =>
    rw [setItem, if_pos hany] at hp
    rcases List.mem_map.mp hp with ⟨q, _, rfl⟩
    by_cases hq : q.1 = k
    · rw [if_pos hq]
    · rw [if_neg hq] at hk ⊢
      exact absurd hk hq
  | false =>
    rw [setItem, if_neg (by simp [hany])] at hp
    rcases List.mem_append.mp hp with hmem | hmem
    · have : d.any (fun p => p.1 = k) = true :=
        List.any_eq_true.mpr ⟨p, hmem, by simpa using hk⟩
      rw [hany] at this
      cases this
    · simp only [List.mem_singleton] at hmem
      rw [hmem]

/-- Writing `w` under `k` when every binding of `k` already holds `w` is
the identity (provided the key is present, so nothing is appended). -/
theorem setItem_eq_self {d : Doc} {k : String} {w : Value}
    (hany : d.any (fun p => p.1 = k) = true)
    (hall : ∀ p ∈ d, p.1 = k → p.2 = w) :
    setItem d k w = d := by
  rw [setItem, if_pos hany]
  have : ∀ p ∈ d, (if p.1 = k then (k, w) else p) = p := by
    intro p hp
    by_cases hpk : p.1 = k
    · rw [if_pos hpk]
      have := hall p hp hpk
      cases p
      simp_all
    · rw [if_neg hpk]
  calc d.map (fun p => if p.1 = k then (k, w) else p) = d.map id :=
        List.map_congr_left this
    _ = d := List.map_id d

theorem idStep_of_getVal_none {d : Doc} (h : getVal d "_id" = none) :
    idStep d = d := by
  simp [idStep, h]

theorem idStep_of_falsy {d : Doc} {v : Value} (h : getVal d "_id" = some v)
    (hf : pyTruthy v = false) : idStep d = d := by
  simp [idStep, h, hf]

theorem idStep_of_truthy {d : Doc} {v : Value} (h : getVal d "_id" = some v)
    (ht : pyTruthy v = true) :
    idStep d = setItem d "_id" (.vStr (pyStr v)) := by
  simp [idStep, h, ht]

/-- Running the `_id` step again after a full serialization pass changes
nothing: the `_id` binding is already a string (so stringifying is the
identity) or still the falsy or absent value it was. -/
theorem idStep_dtMap_idStep (d : Doc) :
    idStep (dtMap (idStep d)) = dtMap (idStep d) := by
  cases h : getVal d "_id" with
  | none =>
    rw [idStep_of_getVal_none h]
    apply idStep_of_getVal_none
    rw [getVal_dtMap, h]
    rfl
  | some v =>
    cases ht : pyTruthy v with
    | false =>
      rw [idStep_of_falsy h ht]
      have h2 : getVal (dtMap d) "_id" = some v := by
        rw [getVal_dtMap, h]
        simp [dtRewrite_of_falsy ht]
      exact idStep_of_falsy h2 ht
    | true =>
      rw [idStep_of_truthy h ht]
      have h2 : getVal (setItem d "_id" (.vStr (pyStr v))) "_id" =
          some (.vStr (pyStr v)) := getVal_setItem_self _ h
      have h3 : getVal (dtMap (setItem d "_id" (.vStr (pyStr v)))) "_id" =
          some (.vStr (pyStr v)) := by
        rw [getVal_dtMap, h2]
        rfl
      cases hs : pyTruthy (Value.vStr (pyStr v)) with
      | false => exact idStep_of_falsy h3 hs
      | true =>
        rw [idStep_of_truthy h3 hs]
        have hps : pyStr (Value.vStr (pyStr v)) = pyStr v := rfl
        rw [hps]
        apply setItem_eq_self (any_key_of_getVal h3)
        intro p hp hk
        rw [dtMap] at hp
        rcases List.mem_map.mp hp with ⟨q, hq, rfl⟩
        have hq2 : q.2 = .vStr (pyStr v) := setItem_entry_eq q hq hk
        simp [hq2, dtRewrite]

theorem serializeNonEmpty_idem (d : Doc) :
    serializeNonEmpty (serializeNonEmpty d) = serializeNonEmpty d := by
  unfold serializeNonEmpty
  rw [idStep_dtMap_idStep, dtMap_idem]

/-! ## Lemmas about identifier strings -/

theorem hexDigit_isHex {n : Nat} (h : n < 16) : isHexChar (hexDigit n) = true := by
  interval_cases n <;> decide

theorem hexVal_hexDigit {n : Nat} (h : n < 16) : hexVal (hexDigit n) = n := by
  interval_cases n <;> decide

theorem length_toHexAux (len : Nat) : ∀ o, (toHexAux len o).length = len := by
  induction len with
  | zero => intro o; rfl
  | succ k ih => intro o; simp [toHexAux, ih]

theorem all_isHexChar_toHexAux (len : Nat) :
    ∀ o, (toHexAux len o).all isHexChar = true := by
  induction len with
  | zero => intro o; rfl
  | succ k ih =>
    intro o
    simp only [toHexAux, List.all_append, ih, Bool.true_and, List.all_cons,
      List.all_nil, Bool.and_true]
    exact hexDigit_isHex (Nat.mod_lt o (by norm_num))

theorem parseHex_toHexAux (len : Nat) :
    ∀ o, parseHex (toHexAux len o) = o % 16 ^ len := by
  induction len with
  | zero => intro o; simp [toHexAux, parseHex, Nat.mod_one]
  | succ k ih =>
    intro o
    have step : parseHex (toHexAux (k + 1) o) =
        parseHex (toHexAux k (o / 16)) * 16 + hexVal (hexDigit (o % 16)) := by
      rw [toHexAux, parseHex, parseHex, List.foldl_append]
      rfl
    rw [step, ih, hexVal_hexDigit (Nat.mod_lt o (by norm_num)),
      pow_succ' 16 k, Nat.mod_mul]
    ring

theorem isValidOidStr_oidToString (o : Nat) :
    isValidOidStr (oidToString o) = true := by
  have h1 : (oidToString o).length = 24 := length_toHexAux 24 o
  have h2 : (oidToString o).toList = toHexAux 24 o := rfl
  unfold isValidOidStr
  rw [h1, h2, all_isHexChar_toHexAux]
  rfl

theorem parseOid_oidToString {o : Nat} (h : o < 16 ^ 24) :
    parseOid (oidToString o) = some o := by
  have h2 : (oidToString o).toList = toHexAux 24 o := rfl
  rw [parseOid, if_pos (isValidOidStr_oidToString o), h2, parseHex_toHexAux,
    Nat.mod_eq_of_lt h]

/-- Canonical id strings of bounded (12-byte) ObjectIds are distinct. -/
theorem oidToString_inj {o₁ o₂ : Nat} (h₁ : o₁ < 16 ^ 24) (h₂ : o₂ < 16 ^ 24)
    (h : oidToString o₁ = oidToString o₂) : o₁ = o₂ := by
  have h3 := parseOid_oidToString h₁
  rw [h, parseOid_oidToString h₂] at h3
  exact (Option.some.inj h3).symm

/-- A canonical id string never equals a malformed id string. -/
theorem oidToString_ne_of_invalid {o : Nat} {s : String}
    (h : isValidOidStr s = false) : oidToString o ≠ s := by
  intro he
  rw [← he, isValidOidStr_oidToString o] at h
  cases h

/-! ## Lemmas about lists and the `events_by_id` dict -/

theorem find?_ext {α : Type} {p q : α → Bool} :
    ∀ {l : List α}, (∀ a ∈ l, p a = q a) → l.find? p = l.find? q := by
  intro l
  induction l with
  | nil => intro _; rfl
  | cons a t ih =>
    intro h
    rw [List.find?_cons, List.find?_cons, h a (by simp)]
    cases q a
    · exact ih (fun b hb => h b (by simp [hb]))
    · rfl

/-- Dropping only elements that fail `p` does not change `find? p`. -/
theorem find?_filter_of_imp {α : Type} {p f : α → Bool} :
    ∀ (l : List α), (∀ a ∈ l, p a = true → f a = true) →
      (l.filter f).find? p = l.find? p := by
  intro l
  induction l with
  | nil => intro _; rfl
  | cons a t ih =>
    intro h
    have ht : ∀ b ∈ t, p b = true → f b = true :=
      fun b hb => h b (by simp [hb])
    cases hf : f a with
    | true =>
      rw [List.filter_cons, if_pos hf, List.find?_cons, List.find?_cons]
      cases p a
      · exact ih ht
      · rfl
    | false =>
      have hpa : p a = false := by
        cases hpa : p a
        · rfl
        · rw [h a (by simp) hpa] at hf
          cases hf
      rw [List.filter_cons, if_neg (by simp [hf]), List.find?_cons, hpa, ih ht]

theorem contains_iff_mem {l : List Nat} {a : Nat} :
    l.contains a = true ↔ a ∈ l := by
  simp [List.contains_eq_any_beq, List.any_eq_true, eq_comm]

/-- With pairwise-distinct keys, the `events_by_id` loop never overwrites:
it appends one entry per document that has an `_id`. -/
theorem eventsById_foldl :
    ∀ (l : List Doc) (m₀ : List (String × Doc)),
      (m₀.map Prod.fst ++ l.filterMap oidKey).Nodup →
      l.foldl eventsByIdStep m₀ = m₀ ++ l.filterMap oidEntry := by
  intro l
  induction l with
  | nil => intro m₀ _; simp
  | cons ev t ih =>
    intro m₀ hnd
    cases hid : getVal ev "_id" with
    | none =>
      have hk : oidKey ev = none := by simp [oidKey, hid]
      have he : oidEntry ev = none := by simp [oidEntry, hid]
      rw [List.foldl_cons, List.filterMap_cons, he]
      have hstep : eventsByIdStep m₀ ev = m₀ := by simp [eventsByIdStep, hid]
      rw [hstep]
      apply ih
      rwa [List.filterMap_cons, hk] at hnd
    | some v =>
      have hk : oidKey ev = some (pyStr v) := by simp [oidKey, hid]
      have he : oidEntry ev = some (pyStr v, serializeNonEmpty ev) := by
        simp [oidEntry, hid]
      rw [List.filterMap_cons, hk] at hnd
      have hnotin : pyStr v ∉ m₀.map Prod.fst := by
        rcases List.nodup_append.mp hnd with ⟨_, _, hdisj⟩
        intro hmem
        exact hdisj hmem (by simp)
      have hany : m₀.any (fun p => p.1 = pyStr v) = false := by
        cases hha : m₀.any (fun p => p.1 = pyStr v)
        · rfl
        · rcases List.any_eq_true.mp hha with ⟨p, hp, hpk⟩
          exact absurd (List.mem_map.mpr ⟨p, hp, by simpa using hpk⟩) hnotin
      have hstep : eventsByIdStep m₀ ev =
          m₀ ++ [(pyStr v, serializeNonEmpty ev)] := by
        rw [eventsByIdStep]
        simp only [hid]
        rw [dictInsert, if_neg (by simp [hany])]
      rw [List.foldl_cons, hstep,
        ih (m₀ ++ [(pyStr v, serializeNonEmpty ev)]) (by simpa using hnd),
        List.filterMap_cons, he]
      simp

/-- Lookup in an append-only assoc list built from `oidEntry` is `find?`
on the underlying documents. -/
theorem dictGet_filterMap_oidEntry (s : String) :
    ∀ (l : List Doc), dictGet (l.filterMap oidEntry) s =
      (l.find? (fun ev => oidKey ev = some s)).map serializeNonEmpty := by
  intro l
  induction l with
  | nil => rfl
  | cons ev t ih =>
    cases hid : getVal ev "_id" with
    | none =>
      have hk : oidKey ev = none := by simp [oidKey, hid]
      have he : oidEntry ev = none := by simp [oidEntry, hid]
      simp [List.filterMap_cons, he, List.find?_cons, hk, ih]
    | some v =>
      have hk : oidKey ev = some (pyStr v) := by simp [oidKey, hid]
      have he : oidEntry ev = some (pyStr v, serializeNonEmpty ev) := by
        simp [oidEntry, hid]
      by_cases hs : pyStr v = s
      · simp [List.filterMap_cons, he, List.find?_cons, hk, hs, dictGet]
      · simp [List.filterMap_cons, he, List.find?_cons, hk, hs, dictGet, ih]

/-- The composed characterization of the hydration dict. -/
theorem eventsById_lookup (l : List Doc) (s : String)
    (hnd : (l.filterMap oidKey).Nodup) :
    dictGet (eventsById l) s =
      (l.find? (fun ev => oidKey ev = some s)).map serializeNonEmpty := by
  rw [eventsById, eventsById_foldl l [] (by simpa using hnd)]
  simpa using dictGet_filterMap_oidEntry s l

theorem oidOf_eq_some {e : Doc} {o : Nat} (h : oidOf e = some o) :
    getVal e "_id" = some (.vOid o) := by
  unfold oidOf at h
  rcases hge : getVal e "_id" with _ | v
  · rw [hge] at h
    simp at h
  · rw [hge] at h
    cases v <;> simp_all

theorem idStringOf_eq_some {e : Doc} {str : String}
    (h : idStringOf e = some str) :
    ∃ o, getVal e "_id" = some (.vOid o) ∧ str = oidToString o := by
  unfold idStringOf at h
  rcases hge : getVal e "_id" with _ | v
  · rw [hge] at h
    simp at h
  · rw [hge] at h
    cases v with
    | vOid o₂ =>
      refine ⟨o₂, rfl, ?_⟩
      simpa using h.symm
    | vNull => simp at h
    | vBool b => simp at h
    | vInt n => simp at h
    | vStr s₂ => simp at h
    | vDt t => simp at h
    | vDoc d₂ => simp at h
    | vList l₂ => simp at h

/-- Everything `fetchReferenced` returns comes from the event collection. -/
theorem fetchReferenced_sublist (events : List Doc) (ids : List Nat) :
    List.Sublist (fetchReferenced events ids) events := by
  rw [fetchReferenced]
  split
  · exact List.nil_sublist _
  · exact List.filter_sublist _

/-- Every fetched document carries an ObjectId `_id` that occurs among
the requested ids. -/
theorem fetchReferenced_shape (events : List Doc) (ids : List Nat) :
    ∀ e ∈ fetchReferenced events ids,
      ∃ o, getVal e "_id" = some (.vOid o) ∧ ids.contains o = true := by
  intro e he
  rw [fetchReferenced] at he
  split at he
  · cases he
  · unfold findIdIn at he
    have hp := List.of_mem_filter he
    rcases hge : getVal e "_id" with _ | v
    · rw [hge] at hp
      simp at hp
    · rw [hge] at hp
      cases v with
      | vOid o₂ => exact ⟨o₂, rfl, by simpa using hp⟩
      | vNull => simp at hp
      | vBool b => simp at hp
      | vInt n => simp at hp
      | vStr s₂ => simp at hp
      | vDt t => simp at hp
      | vDoc d₂ => simp at hp
      | vList l₂ => simp at hp

/-- Hydration of one fetched RSVP agrees with the spec-side description:
the attached event is the stored event whose canonical identifier string
equals the `event_id`, and null when there is none.  Store invariants:
identifiers are 12-byte values and are pairwise distinct. -/
theorem hydrateRsvp_spec (dbv : DB) (R : List Doc) (r : Doc) (hr : r ∈ R)
    (hbound : ∀ e ∈ dbv.event, ∀ o, getVal e "_id" = some (.vOid o) → o < 16 ^ 24)
    (hnodup : (dbv.event.filterMap oidOf).Nodup) :
    hydrateRsvp (eventsById (fetchReferenced dbv.event (rsvpEventIds R))) r =
      setItem (serializeNonEmpty r) "event" (specEventFor dbv.event r) := by
  rw [hydrateRsvp]
  refine congrArg (setItem (serializeNonEmpty r) "event") ?_
  have hsub : List.Sublist (fetchReferenced dbv.event (rsvpEventIds R)) dbv.event :=
    fetchReferenced_sublist dbv.event (rsvpEventIds R)
  have hshape := fetchReferenced_shape dbv.event (rsvpEventIds R)
  have hnd_fetched :
      ((fetchReferenced dbv.event (rsvpEventIds R)).filterMap oidKey).Nodup := by
    have h1 : (fetchReferenced dbv.event (rsvpEventIds R)).filterMap oidKey
        = ((fetchReferenced dbv.event (rsvpEventIds R)).filterMap oidOf).map
            oidToString := by
      rw [List.map_filterMap]
      apply List.filterMap_congr
      intro e he
      rcases hshape e he with ⟨o, hid, _⟩
      simp [oidKey, oidOf, hid, pyStr]
    rw [h1]
    apply List.Nodup.map_on
    · intro x hx y hy hxy
      rcases List.mem_filterMap.mp hx with ⟨ex, hex, hox⟩
      rcases List.mem_filterMap.mp hy with ⟨ey, hey, hoy⟩
      exact oidToString_inj
        (hbound ex (hsub.subset hex) x (oidOf_eq_some hox))
        (hbound ey (hsub.subset hey) y (oidOf_eq_some hoy)) hxy
    · exact List.Nodup.sublist (List.Sublist.filterMap oidOf hsub) hnodup
  cases hev : getVal r "event_id" with
  | none => simp [specEventFor, hev]
  | some v =>
    cases v with
    | vNull => simp [specEventFor, hev]
    | vBool b => simp [specEventFor, hev]
    | vInt n => simp [specEventFor, hev]
    | vOid o => simp [specEventFor, hev]
    | vDt t => simp [specEventFor, hev]
    | vDoc d2 => simp [specEventFor, hev]
    | vList l2 => simp [specEventFor, hev]
    | vStr s =>
      dsimp only
      rw [eventsById_lookup _ s hnd_fetched]
      have hA : (fetchReferenced dbv.event (rsvpEventIds R)).find?
            (fun ev => oidKey ev = some s)
          = (fetchReferenced dbv.event (rsvpEventIds R)).find?
            (fun e => idStringOf e = some s) := by
        apply find?_ext
        intro e he
        rcases hshape e he with ⟨o, hid, _⟩
        simp [oidKey, idStringOf, hid, pyStr]
      rw [hA]
      have hB : (fetchReferenced dbv.event (rsvpEventIds R)).find?
            (fun e => idStringOf e = some s)
          = dbv.event.find? (fun e => idStringOf e = some s) := by
        cases hval : isValidOidStr s with
        | false =>
          have hpf : ∀ e : Doc, (decide (idStringOf e = some s)) = false := by
            intro e
            rcases hoe : idStringOf e with _ | str
            · simp
            · rcases idStringOf_eq_some hoe with ⟨o, _, rfl⟩
              simpa using oidToString_ne_of_invalid hval
          rw [List.find?_eq_none.mpr (fun e _ => by simp [hpf e]),
            List.find?_eq_none.mpr (fun e _ => by simp [hpf e])]
        | true =>
          have hparse : parseOid s = some (parseHex s.toList) := by
            rw [parseOid, if_pos hval]
          have hmem_ids : parseHex s.toList ∈ rsvpEventIds R := by
            rw [rsvpEventIds]
            exact List.mem_filterMap.mpr ⟨r, hr, by rw [hev]; exact hparse⟩
          have hne : (rsvpEventIds R).isEmpty = false :=
            List.isEmpty_eq_false.mpr (List.ne_nil_of_mem hmem_ids)
          have hfeq : fetchReferenced dbv.event (rsvpEventIds R)
              = findIdIn dbv.event (rsvpEventIds R) := by
            rw [fetchReferenced, hne]
            simp
          rw [hfeq]
          unfold findIdIn
          apply find?_filter_of_imp
          intro e he hp
          have hpe : idStringOf e = some s := of_decide_eq_true hp
          rcases idStringOf_eq_some hpe with ⟨o, hid, hso⟩
          have hO : parseOid s = some o := by
            rw [hso]
            exact parseOid_oidToString (hbound e he o hid)
          have hoS : o = parseHex s.toList := by
            rw [hO] at hparse
            exact Option.some.inj hparse
          rw [hid]
          exact contains_iff_mem.mpr (hoS ▸ hmem_ids)
      rw [hB, specEventFor, hev]
      dsimp only
      cases dbv.event.find? (fun e => idStringOf e = some s) <;> rfl

/-! ## Claim theorems -/

/-- C1.  The claim says a well-formed id that matches no stored event
yields a NOT_FOUND with HTTP 404.  The code disagrees with itself: it
raises `HTTPException(404, "Event not found")` inside the `try`, and its
own blanket `except Exception` catches that very exception and re-raises
it as a 400 whose detail is `str(e)`, i.e. `"404: Event not found"`.
Evaluation at a well-formed identifier over a store with no events shows
the delivered status is 400, not 404. -/
theorem c1_get_event_wellformed_miss_gives_400 :
    isValidOidStr "0123456789abcdef01234567" = true ∧
    get_event (some sampleDB) "0123456789abcdef01234567" =
      .err 400 (httpExcStr 404 "Event not found") ∧
    (get_event (some sampleDB) "0123456789abcdef01234567").statusCode = 400 := by
  exact ⟨by decide, rfl, rfl⟩

/-- C4.  On a configured store, a malformed event id makes
`ObjectId(event_id)` raise before any lookup, and the handler answers 400
with the parse message — never 500, and never a 200 success.  (The
unconfigured-store case is a 500 by the guard before the `try`; that
behavior is claim C8.) -/
theorem c4_get_event_malformed_id_gives_400 (dbv : DB) (event_id : String)
    (h : isValidOidStr event_id = false) :
    get_event (some dbv) event_id = .err 400 (invalidIdMsg event_id) := by
  simp [get_event, parseOid, h]

/-- Witness for C4 at a concrete malformed id. -/
theorem c4_witness :
    isValidOidStr "not-a-valid-id" = false ∧
    get_event (some sampleDB) "not-a-valid-id" =
      .err 400 (invalidIdMsg "not-a-valid-id") :=
  ⟨by decide, c4_get_event_malformed_id_gives_400 sampleDB "not-a-valid-id" (by decide)⟩

/-- C5.  The `limit` of `GET /api/events` defaults to 50 and any supplied
value above 200 or below 1 fails validation; the `limit` of
`GET /api/rsvps` defaults to 100 and any value above 300 or below 1 fails
validation. -/
theorem c5_limit_param_bounds :
    eventsLimitParam none = .ok 50 ∧ rsvpsLimitParam none = .ok 100 ∧
    (∀ v : Int, 200 < v ∨ v < 1 →
      ∃ msg, eventsLimitParam (some v) = .error msg) ∧
    (∀ v : Int, 300 < v ∨ v < 1 →
      ∃ msg, rsvpsLimitParam (some v) = .error msg) := by
  refine ⟨rfl, rfl, ?_, ?_⟩ <;>
    · intro v hv
      simp only [eventsLimitParam, rsvpsLimitParam, queryIntParam]
      rcases hv with h | h
      · rw [if_neg (by omega), if_pos h]
        exact ⟨_, rfl⟩
      · rw [if_pos h]
        exact ⟨_, rfl⟩

/-- Witness for C5: 201 is rejected for events, 0 for rsvps. -/
theorem c5_witness :
    (∃ msg, eventsLimitParam (some 201) = .error msg) ∧
    (∃ msg, rsvpsLimitParam (some 0) = .error msg) :=
  ⟨c5_limit_param_bounds.2.2.1 201 (Or.inl (by decide)),
   c5_limit_param_bounds.2.2.2 0 (Or.inr (by decide))⟩

/-- C8.  Without a store connection the greeting endpoints still answer
their fixed 200 payloads (and never read the handle at all: their result
is the same for every handle), while the store-dependent handlers
`get_event` and `my_overview` answer a 500 with detail
`"Database not configured"` instead of crashing. -/
theorem c8_degraded_mode_without_store (db db₂ : Option DB)
    (event_id email : String) :
    read_root db = .ok [("message", .vStr "Discover Portugal API is running")] ∧
    hello db = .ok [("message", .vStr "Olá from Discover Portugal backend!")] ∧
    read_root db = read_root db₂ ∧ hello db = hello db₂ ∧
    (read_root db).statusCode = 200 ∧ (hello db).statusCode = 200 ∧
    get_event none event_id = .err 500 "Database not configured" ∧
    my_overview none email = .err 500 "Database not configured" :=
  ⟨rfl, rfl, rfl, rfl, rfl, rfl, rfl, rfl⟩

/-- C10.  An empty-string query parameter is falsy in Python, so each
`if param:` guard skips its condition: the filter built for `""` is the
filter built for an absent parameter, for all five filterable parameters
of the two list endpoints. -/
theorem c10_empty_string_params_filter_nothing
    (category city q user_email event_id : Option String) :
    list_events_filter (some "") city q = list_events_filter none city q ∧
    list_events_filter category (some "") q = list_events_filter category none q ∧
    list_events_filter category city (some "") = list_events_filter category city none ∧
    list_rsvps_filter (some "") event_id = list_rsvps_filter none event_id ∧
    list_rsvps_filter user_email (some "") = list_rsvps_filter user_email none := by
  refine ⟨?_, ?_, ?_, ?_, ?_⟩ <;> simp [list_events_filter, list_rsvps_filter]

/-- C3.  The filter handed to the document query by `GET /api/events`
consists of exactly: an exact match on `category` when that parameter is
given (non-empty, per the `if category:` guard — C10 covers the empty
string), an exact match on the nested path `location.city` when `city` is
given, and, when `q` is given, a single disjunction of two
case-insensitive pattern conditions, on `title` and on `description`. -/
theorem c3_list_events_filter_shape (category city q : Option String)
    (cond : Cond) :
    cond ∈ list_events_filter category city q ↔
      ((∃ c, category = some c ∧ c ≠ "" ∧ cond = .eqc "category" c) ∨
       (∃ c, city = some c ∧ c ≠ "" ∧ cond = .eqc "location.city" c) ∨
       (∃ qs, q = some qs ∧ qs ≠ "" ∧
         cond = .orc (.regexI "title" qs) (.regexI "description" qs))) := by
  rcases category with _ | c <;> rcases city with _ | c₂ <;> rcases q with _ | qs <;>
    simp only [list_events_filter, List.mem_append, Option.some.injEq] <;>
    [skip; by_cases hq : qs = ""; by_cases hc₂ : c₂ = "";
     (by_cases hc₂ : c₂ = "" <;> by_cases hq : qs = "");
     by_cases hc : c = ""; (by_cases hc : c = "" <;> by_cases hq : qs = "");
     (by_cases hc : c = "" <;> by_cases hc₂ : c₂ = "");
     (by_cases hc : c = "" <;> by_cases hc₂ : c₂ = "" <;> by_cases hq : qs = "")] <;>
    simp_all [or_assoc]

/-- C9.  The health endpoint `GET /test` is total over every store state:
whatever the handle (absent, or present with any collection-listing
outcome, the raised-exception outcome included), it answers a 200 whose
`collections` entry is a list of at most 10 names. -/
theorem c9_test_database_never_fails (envSet : Bool) (db : Option DB) :
    (test_database envSet db).statusCode = 200 ∧
    ∃ body items, test_database envSet db = .ok body ∧
      getVal body "collections" = some (.vList items) ∧ items.length ≤ 10 := by
  rcases db with _ | ⟨ev, rs, nm, cn⟩
  · exact ⟨rfl, _, [], rfl, rfl, by decide⟩
  · rcases cn with e | cols
    · exact ⟨rfl, _, [], rfl, rfl, by decide⟩
    · refine ⟨rfl, _, (cols.take 10).map Value.vStr, rfl, rfl, ?_⟩
      rw [List.length_map, List.length_take]
      exact Nat.min_le_left _ _

/-- C6.  Over its domain — a document or an absent (`None`) input — the
serializer is total (it is a function, every arm below is an equation)
and idempotent: serializing an already-serialized document returns it
unchanged, and an absent or empty input comes back as it went in. -/
theorem c6_serialize_doc_idempotent_total :
    (∀ x : Option Doc, serialize_doc (serialize_doc x) = serialize_doc x) ∧
    serialize_doc none = none ∧ serialize_doc (some []) = some [] := by
  refine ⟨?_, rfl, rfl⟩
  intro x
  cases x with
  | none => rfl
  | some d => rw [serialize_doc_some, serialize_doc_some, serializeNonEmpty_idem]

/-- C7.  On a stored document (whose `_id` holds a store-native ObjectId),
serialization maps each field pointwise: `_id` becomes the plain id
string, every top-level datetime becomes its ISO-8601 text, and every
other field — embedded structures such as `location` included, datetimes
nested inside them and all — is returned exactly as it was. -/
theorem c7_serialize_doc_frame (d : Doc) (o : Nat)
    (h : getVal d "_id" = some (.vOid o)) :
    serialize_doc (some d) = some (d.map (fun p =>
      (p.1, if p.1 = "_id" then Value.vStr (oidToString o)
            else match p.2 with
                 | .vDt t => Value.vStr t.isoformat
                 | v => v))) := by
  rw [serialize_doc_some]
  unfold serializeNonEmpty
  rw [idStep_of_truthy h rfl, setItem, if_pos (any_key_of_getVal h), dtMap,
    List.map_map]
  refine congrArg some ?_
  apply List.map_congr_left
  intro p _
  by_cases hpk : p.1 = "_id"
  · simp only [Function.comp_apply, if_pos hpk, hpk]
    rfl
  · simp only [Function.comp_apply, if_neg hpk]
    cases p.2 <;> rfl

/-- Witness for C7: the id is stringified, the top-level datetime becomes
ISO text, and the embedded location — its nested datetime included — is
untouched. -/
theorem c7_witness :
    serialize_doc (some c7SampleDoc) =
      some [("_id", .vStr "000000000000000000000005"),
        ("title", .vStr "Fado night"),
        ("start_time", .vStr "2024-06-10T21:00:00"),
        ("location", .vDoc [("city", .vStr "Lisboa"),
                            ("opens", .vDt ⟨2024, 6, 10, 20, 0, 0⟩)])] :=
  (c7_serialize_doc_frame c7SampleDoc 5 rfl).trans (by rfl)

/-- C2 (amended).  `GET /api/my?email=x` returns up to 100 serialized
events whose `organizer_email` is `x` and up to 200 serialized rsvps
whose `user_email` is `x`; each rsvp carries a synthetic `event` field
holding the serialized stored event whose canonical (lowercase-hex)
identifier string equals its `event_id`, and null when there is no such
event — so null when the `event_id` is malformed, references no stored
event, or spells a stored identifier non-canonically (e.g. in uppercase
hex), the case the original claim missed.  Hypotheses are the store
invariants: identifiers are 12-byte values, pairwise distinct. -/
theorem c2_my_overview_characterization (dbv : DB) (email : String)
    (hbound : ∀ e ∈ dbv.event, ∀ o, getVal e "_id" = some (.vOid o) → o < 16 ^ 24)
    (hnodup : (dbv.event.filterMap oidOf).Nodup) :
    my_overview (some dbv) email = .ok
      { created_events :=
          (findByStrField dbv.event "organizer_email" email 100).map
            serializeNonEmpty,
        rsvps := (findByStrField dbv.rsvp "user_email" email 200).map
          (fun r => setItem (serializeNonEmpty r) "event"
            (specEventFor dbv.event r)) } := by
  simp only [my_overview]
  refine congrArg HResult.ok (congrArg (MyBody.mk _) ?_)
  exact List.map_congr_left (fun r hr =>
    hydrateRsvp_spec dbv _ r hr hbound hnodup)

/-- C2, counterexample to the original claim.  The RSVP references the
stored event through the well-formed uppercase spelling of its
identifier: the event IS fetched by the batch query, yet the string-keyed
dict lookup misses (its keys are lowercase canonical strings) and the
attached `event` is null — so null does not hold "exactly when the
event_id is malformed or references no fetched event". -/
theorem c2_counterexample :
    isValidOidStr "00000000000000000000000A" = true ∧
    parseOid "00000000000000000000000A" = some 10 ∧
    getVal c2Event "_id" = some (.vOid 10) ∧
    fetchReferenced c2CexDB.event
      (rsvpEventIds (findByStrField c2CexDB.rsvp "user_email" "ana@mail.pt" 200))
      = [c2Event] ∧
    my_overview (some c2CexDB) "ana@mail.pt" = .ok
      { created_events := [],
        rsvps := [[("_id", .vStr "000000000000000000000001"),
                   ("event_id", .vStr "00000000000000000000000A"),
                   ("user_email", .vStr "ana@mail.pt"),
                   ("event", .vNull)]] } :=
  ⟨rfl, rfl, rfl, rfl, rfl⟩

/-- Witness for the amended C2 at a concrete store: with the canonical
lowercase spelling the referenced event is attached. -/
theorem c2_witness :
    my_overview (some c2WitnessDB) "ana@mail.pt" = .ok
      { created_events := [],
        rsvps := [[("_id", .vStr "000000000000000000000001"),
                   ("event_id", .vStr "00000000000000000000000a"),
                   ("user_email", .vStr "ana@mail.pt"),
                   ("event", .vDoc [("_id", .vStr "00000000000000000000000a"),
                                    ("title", .vStr "Surf")])]] } :=
  (c2_my_overview_characterization c2WitnessDB "ana@mail.pt"
    (by
      intro e he o h
      have he2 : e = c2Event := by simpa [c2WitnessDB] using he
      subst he2
      have h10 : getVal c2Event "_id" = some (.vOid 10) := rfl
      rw [h10] at h
      injection h with h1
      injection h1 with h2
      rw [← h2]
      decide)
    (by decide)).trans (by rfl)

end DiscoverPortugal
